import Mathlib

/-!
Shallow embedding of `pkg/controller/recommendation/recommendation_controller.go`
from winrouter/crane.

Modelling conventions:
* Instants (`metav1.Time`, `time.Time`) are integers counting seconds; the Go
  code only ever adds second-valued durations and compares with `After`
  (strict `>`), so second granularity is faithful for every comparison the
  controller performs.
* The wall clock (`time.Now()` / `metav1.Now()`) is threaded as an explicit
  `now : Int` argument; one reconcile invocation uses a single instant.
* `*int32` fields are `Option Int` (`int32` arithmetic here cannot overflow
  `time.Duration`, so unbounded integers are faithful).
* The opaque payloads `Status.ResourceRequest` and `Status.EffectiveHPA` are
  modelled as `Option Nat` placeholders: the controller only copies and
  compares them, never inspects them.
* `NeedRecommend` returns `Option`: `none` models the nil-pointer panic on
  dereferencing `Spec.CompletionStrategy.PeriodSeconds`.
* The two external calls of `Reconcile` (recommender construction and
  `Offer`) are summarised by a `RecommenderOutcome` argument; `Reconcile`
  itself returns the `ctrl.Result`, the returned error and the final
  in-memory status.
* `equality.Semantic.DeepEqual` on two `RecommendationStatus` values is
  structural equality of the Lean structures (its custom funcs compare
  `metav1.Time` by instant, which our `Int` instants do directly).
-/

namespace Crane

/-- `metav1.ConditionStatus` (string constants True / False / Unknown). -/
inductive ConditionStatus where
  | ConditionTrue
  | ConditionFalse
  | ConditionUnknown
deriving DecidableEq, Repr, BEq

/-- `metav1.Condition`, restricted to the fields the controller touches. -/
structure Condition where
  type : String
  status : ConditionStatus
  reason : String
  message : String
  lastTransitionTime : Int
deriving DecidableEq, Repr, BEq

/-- `analysisv1alph1.RecommendationStatus`, restricted to the fields the
controller touches. -/
@[ext] structure RecommendationStatus where
  conditions : List Condition
  lastUpdateTime : Int
  lastSuccessfulTime : Option Int
  resourceRequest : Option Nat
  effectiveHPA : Option Nat
deriving DecidableEq, Repr, BEq

/-- `analysisv1alph1.CompletionStrategy`: a string-typed strategy tag plus an
optional `PeriodSeconds` pointer. -/
structure CompletionStrategy where
  completionStrategyType : String
  periodSeconds : Option Int
deriving DecidableEq, Repr, BEq

/-- The part of `analysisv1alph1.RecommendationSpec` the controller reads. -/
structure RecommendationSpec where
  completionStrategy : CompletionStrategy
  timeoutSeconds : Option Int
deriving DecidableEq, Repr, BEq

/-- `analysisv1alph1.Recommendation`: object metadata plus spec and status. -/
structure Recommendation where
  name : String
  creationTimestamp : Int
  deletionTimestamp : Option Int
  spec : RecommendationSpec
  status : RecommendationStatus
deriving DecidableEq, Repr, BEq

/-- `RsyncPeriod = 60 * time.Second`, in seconds. -/
def RsyncPeriod : Int := 60

/-- `ErrorFallbackPeriod = 5 * time.Second`, in seconds. -/
def ErrorFallbackPeriod : Int := 5

/-- `DefaultTimeoutSeconds = int32(600)`. -/
def DefaultTimeoutSeconds : Int := 600

/-- `analysisv1alph1.CompletionStrategyOnce`. -/
def CompletionStrategyOnce : String := "Once"

/-- `analysisv1alph1.CompletionStrategyPeriodical`. -/
def CompletionStrategyPeriodical : String := "Periodical"

/-- The loop body of `setCondition` (lines 186-201): walk the slice, overwrite
the first entry whose `Type` matches in place, otherwise append a fresh entry.
`now` is the value of `metav1.Now()`. -/
def setCondList (conds : List Condition) (conditionType : String)
    (conditionStatus : ConditionStatus) (reason message : String) (now : Int) :
    List Condition :=
  match conds with
  | [] =>
      [{ type := conditionType, status := conditionStatus, reason := reason,
         message := message, lastTransitionTime := now }]
  | c :: rest =>
      if c.type = conditionType then
        { c with status := conditionStatus, reason := reason,
                 message := message, lastTransitionTime := now } :: rest
      else
        c :: setCondList rest conditionType conditionStatus reason message now

/-- `setCondition` (line 185): upsert on `status.Conditions`. -/
def setCondition (status : RecommendationStatus) (conditionType : String)
    (conditionStatus : ConditionStatus) (reason message : String) (now : Int) :
    RecommendationStatus :=
  { status with
      conditions :=
        setCondList status.conditions conditionType conditionStatus reason
          message now }

/-- The readiness scan of `UpdateStatus` (lines 157-163): some condition has
`Reason == "RecommendationReady" && Status == ConditionTrue` (the `Type` field
is not consulted). -/
def readyScan (conds : List Condition) : Bool :=
  conds.any fun cond =>
    cond.reason == "RecommendationReady"
      && cond.status == ConditionStatus.ConditionTrue

/-- `Controller.UpdateStatus` (lines 150-177). Returns the recommendation's
in-memory status after the call together with `changed`, i.e. whether the
deep-equality gate fired and a persistence write was attempted. The
persistence write itself (`c.Update`) only logs on failure and never alters
the in-memory status, so it has no effect to model beyond the Bool. -/
def UpdateStatus (current newStatus : RecommendationStatus) (now : Int) :
    RecommendationStatus × Bool :=
  if current = newStatus then
    (current, false)
  else
    let stamped := { newStatus with lastUpdateTime := now }
    if readyScan newStatus.conditions then
      ({ stamped with lastSuccessfulTime := some now }, true)
    else
      (stamped, true)

/-- `Controller.NeedRecommend` (lines 113-148). Returns
`some (needRecommend, needResync)`, or `none` when the Go code would panic:
the `Periodical` branch dereferences `Spec.CompletionStrategy.PeriodSeconds`
with no nil check (line 139). Sequential `if` blocks on the strategy string
collapse to if/else-if because the two string constants are distinct. -/
def NeedRecommend (r : Recommendation) (now : Int) : Option (Bool × Bool) :=
  let timeoutSeconds :=
    match r.spec.timeoutSeconds with
    | some t => t
    | none => DefaultTimeoutSeconds
  if r.spec.completionStrategy.completionStrategyType = CompletionStrategyOnce then
    match r.status.lastSuccessfulTime with
    | some _ => some (false, false)
    | none =>
        let planingRecommendTime := r.creationTimestamp + timeoutSeconds
        if now > planingRecommendTime then
          some (false, false)
        else
          some (true, false)
  else if r.spec.completionStrategy.completionStrategyType = CompletionStrategyPeriodical then
    match r.status.lastSuccessfulTime with
    | none => some (true, false)
    | some lst =>
        match r.spec.completionStrategy.periodSeconds with
        | none => none
        | some p =>
            let planingRecommendTime := lst + p + timeoutSeconds
            if now > planingRecommendTime then
              some (false, true)
            else
              some (true, false)
  else
    some (true, false)

/-- `timeout = Spec.TimeoutSeconds if present else 600` (lines 114-117). -/
def timeoutOf (r : Recommendation) : Int :=
  match r.spec.timeoutSeconds with
  | some t => t
  | none => DefaultTimeoutSeconds

/-- The spec's decision vocabulary for `decide`. -/
inductive Decision where
  | Run
  | Skip
  | ResyncAfter (d : Int)
deriving DecidableEq, Repr

/-- The spec's `decide(spec, status, now)`: `NeedRecommend` mapped onto
{Run, Skip, ResyncAfter}. `(true, _)` makes `Reconcile` run the recommender;
`(false, false)` makes it return an empty result (Skip); `(false, true)`
makes it return `RequeueAfter: RsyncPeriod` (ResyncAfter 60s). -/
def decideAction (r : Recommendation) (now : Int) : Option Decision :=
  match NeedRecommend r now with
  | none => none
  | some (true, _) => some Decision.Run
  | some (false, false) => some Decision.Skip
  | some (false, true) => some (Decision.ResyncAfter RsyncPeriod)

/-- One proposal from `recommender.Offer()`: the two opaque payloads. -/
structure Proposal where
  resourceRequest : Option Nat
  effectiveHPA : Option Nat
deriving DecidableEq, Repr, BEq

/-- Summary of the two external recommender calls inside `Reconcile`:
`recommend.NewRecommender` failing, `recommender.Offer()` failing, or `Offer`
succeeding with a (possibly nil) proposal. -/
inductive RecommenderOutcome where
  | constructionError (err : String)
  | invocationError (err : String)
  | success (proposed : Option Proposal)
deriving DecidableEq, Repr, BEq

/-- `ctrl.Result`: only `RequeueAfter` is ever set by this controller. -/
structure CtrlResult where
  requeueAfter : Option Int
deriving DecidableEq, Repr, BEq

/-- What one `Reconcile` call produces: the `ctrl.Result`, the returned
error, and the recommendation's in-memory status afterwards. -/
structure ReconcileOutput where
  result : CtrlResult
  error : Option String
  status : RecommendationStatus
deriving DecidableEq, Repr, BEq

/-- The message built at line 83:
`fmt.Sprintf("Failed to create recommender, Recommendation %s error %v", ...)`. -/
def failedCreateRecommenderMsg (name err : String) : String :=
  "Failed to create recommender, Recommendation " ++ name ++ " error " ++ err

/-- The message built at line 93:
`fmt.Sprintf("Failed to offer recommend, Recommendation %s error %v", ...)`. -/
def failedOfferRecommendMsg (name err : String) : String :=
  "Failed to offer recommend, Recommendation " ++ name ++ " error " ++ err

/-- Lines 102-105: the payload copy `if proposed != nil { ... }` applied to
the deep-copied status. Failure outcomes and a nil proposal leave
`ResourceRequest` / `EffectiveHPA` untouched. -/
def payloadStatus (current : RecommendationStatus)
    (outcome : RecommenderOutcome) : RecommendationStatus :=
  match outcome with
  | RecommenderOutcome.success (some p) =>
      { current with resourceRequest := p.resourceRequest,
                     effectiveHPA := p.effectiveHPA }
  | _ => current

/-- The `ConditionStatus` argument of the `setCondition` call each outcome
reaches (lines 85, 95, 107). -/
def outcomeCondStatus : RecommenderOutcome → ConditionStatus
  | RecommenderOutcome.constructionError _ => ConditionStatus.ConditionFalse
  | RecommenderOutcome.invocationError _ => ConditionStatus.ConditionFalse
  | RecommenderOutcome.success _ => ConditionStatus.ConditionTrue

/-- The `reason` argument of the `setCondition` call each outcome reaches. -/
def outcomeReason : RecommenderOutcome → String
  | RecommenderOutcome.constructionError _ => "FailedCreateRecommender"
  | RecommenderOutcome.invocationError _ => "FailedOfferRecommend"
  | RecommenderOutcome.success _ => "RecommendationReady"

/-- The `message` argument of the `setCondition` call each outcome reaches. -/
def outcomeMessage (name : String) : RecommenderOutcome → String
  | RecommenderOutcome.constructionError e => failedCreateRecommenderMsg name e
  | RecommenderOutcome.invocationError e => failedOfferRecommendMsg name e
  | RecommenderOutcome.success _ => "Recommendation is ready"

/-- The `newStatus` value `Reconcile` hands to `UpdateStatus` (lines 78-107):
deep-copy of the fetched status, payloads copied for a successful non-nil
proposal, then the `Ready` condition upsert for the outcome. -/
def proposedStatus (current : RecommendationStatus) (name : String)
    (outcome : RecommenderOutcome) (now : Int) : RecommendationStatus :=
  setCondition (payloadStatus current outcome) "Ready"
    (outcomeCondStatus outcome) (outcomeReason outcome)
    (outcomeMessage name outcome) now

/-- The status-reconciliation step of `Reconcile` (lines 78-108) for one
recommender outcome: build `newStatus` and run `UpdateStatus` against the
fetched status. Returns the final in-memory status and `changed`. -/
def reconcileStatus (current : RecommendationStatus) (name : String)
    (outcome : RecommenderOutcome) (now : Int) : RecommendationStatus × Bool :=
  UpdateStatus current (proposedStatus current name outcome now) now

/-- `Controller.Reconcile` (lines 46-110) after a successful fetch. `none`
models the `PeriodSeconds` nil-pointer panic propagated from
`NeedRecommend`. The construction-error path returns `ctrl.Result{}` with the
error (line 87); the invocation-error path returns
`RequeueAfter: ErrorFallbackPeriod` with the error (lines 97-99); the resync
path returns `RequeueAfter: RsyncPeriod` and the nil error from the fetch
(lines 67-69). -/
def Reconcile (r : Recommendation) (outcome : RecommenderOutcome) (now : Int) :
    Option ReconcileOutput :=
  if r.deletionTimestamp.isSome then
    some { result := { requeueAfter := none }, error := none, status := r.status }
  else
    match NeedRecommend r now with
    | none => none
    | some (needRecommend, needResync) =>
        if needRecommend = false then
          if needResync then
            some { result := { requeueAfter := some RsyncPeriod },
                   error := none, status := r.status }
          else
            some { result := { requeueAfter := none },
                   error := none, status := r.status }
        else
          match outcome with
          | RecommenderOutcome.constructionError e =>
              some { result := { requeueAfter := none }, error := some e,
                     status := (reconcileStatus r.status r.name outcome now).1 }
          | RecommenderOutcome.invocationError e =>
              some { result := { requeueAfter := some ErrorFallbackPeriod },
                     error := some e,
                     status := (reconcileStatus r.status r.name outcome now).1 }
          | RecommenderOutcome.success _ =>
              some { result := { requeueAfter := none }, error := none,
                     status := (reconcileStatus r.status r.name outcome now).1 }

/-- Upserting into a list with no entry of the given type appends. -/
theorem setCondList_of_not_mem (conds : List Condition) (t : String)
    (cs : ConditionStatus) (rs ms : String) (n : Int)
    (h : ∀ c ∈ conds, c.type ≠ t) :
    setCondList conds t cs rs ms n
      = conds ++ [{ type := t, status := cs, reason := rs, message := ms,
                    lastTransitionTime := n }] := by
  induction conds with
  | nil => rfl
  | cons c rest ih =>
      unfold setCondList
      rw [if_neg (h c (List.mem_cons_self c rest)),
        ih fun c' hc' => h c' (List.mem_cons_of_mem c hc')]
      rfl

/-- Upserting overwrites the first entry of the given type in place,
leaving everything before and after it untouched. -/
theorem setCondList_overwrite_first (l1 : List Condition) (c : Condition)
    (l2 : List Condition) (t : String) (cs : ConditionStatus) (rs ms : String)
    (n : Int) (hc : c.type = t) (h1 : ∀ c' ∈ l1, c'.type ≠ t) :
    setCondList (l1 ++ c :: l2) t cs rs ms n
      = l1 ++ { c with status := cs, reason := rs, message := ms,
                       lastTransitionTime := n } :: l2 := by
  induction l1 with
  | nil =>
      simp only [List.nil_append]
      unfold setCondList
      rw [if_pos hc]
  | cons a rest ih =>
      simp only [List.cons_append]
      unfold setCondList
      rw [if_neg (h1 a (List.mem_cons_self a rest)),
        ih fun c' hc' => h1 c' (List.mem_cons_of_mem a hc')]

/-- A second upsert for the same type erases the first: only the latest
values survive. -/
theorem setCondList_absorb (conds : List Condition) (t : String)
    (cs : ConditionStatus) (rs ms : String) (n : Int)
    (cs2 : ConditionStatus) (rs2 ms2 : String) (n2 : Int) :
    setCondList (setCondList conds t cs rs ms n) t cs2 rs2 ms2 n2
      = setCondList conds t cs2 rs2 ms2 n2 := by
  induction conds with
  | nil => simp [setCondList]
  | cons c rest ih =>
      by_cases h : c.type = t
      · simp only [setCondList, if_pos h]
      · simp only [setCondList, if_neg h, ih]

/-- The upserted values are present in the result. -/
theorem setCondList_mem_upserted (conds : List Condition) (t : String)
    (cs : ConditionStatus) (rs ms : String) (n : Int) :
    ∃ c ∈ setCondList conds t cs rs ms n,
      c.type = t ∧ c.status = cs ∧ c.reason = rs ∧ c.message = ms
        ∧ c.lastTransitionTime = n := by
  induction conds with
  | nil =>
      exact ⟨_, List.mem_singleton.mpr rfl, rfl, rfl, rfl, rfl, rfl⟩
  | cons c rest ih =>
      by_cases h : c.type = t
      · refine ⟨{ c with status := cs, reason := rs,
                         message := ms, lastTransitionTime := n },
            ?_, h, rfl, rfl, rfl, rfl⟩
        unfold setCondList
        rw [if_pos h]
        exact List.mem_cons_self _ _
      · obtain ⟨c', hmem, hprops⟩ := ih
        refine ⟨c', ?_, hprops⟩
        unfold setCondList
        rw [if_neg h]
        exact List.mem_cons_of_mem c hmem

/-- In a list holding at most one entry of the given type, an upsert leaves
exactly that upserted entry with that type. -/
theorem setCondList_filter_unique (conds : List Condition) (t : String)
    (cs : ConditionStatus) (rs ms : String) (n : Int)
    (h : conds.countP (fun c => c.type == t) ≤ 1) :
    (setCondList conds t cs rs ms n).filter (fun c => c.type == t)
      = [{ type := t, status := cs, reason := rs, message := ms,
           lastTransitionTime := n }] := by
  induction conds with
  | nil =>
      unfold setCondList
      simp
  | cons c rest ih =>
      by_cases hc : c.type = t
      · have hzero : rest.countP (fun c => c.type == t) = 0 := by
          rw [List.countP_cons] at h
          have hb : (c.type == t) = true := by simp [hc]
          rw [hb, if_pos rfl] at h
          omega
        have hnil : rest.filter (fun c => c.type == t) = [] := by
          rw [List.filter_eq_nil_iff]
          intro a ha
          exact (List.countP_eq_zero.mp hzero) a ha
        have hhead : ({ c with status := cs, reason := rs,
                               message := ms, lastTransitionTime := n } : Condition)
            = { type := t, status := cs, reason := rs, message := ms,
                lastTransitionTime := n } := by
          cases c
          simp_all
        unfold setCondList
        rw [if_pos hc, hhead, List.filter_cons]
        simp [hnil]
      · have hrest : rest.countP (fun c => c.type == t) ≤ 1 := by
          rw [List.countP_cons] at h
          omega
        unfold setCondList
        rw [if_neg hc, List.filter_cons]
        have hb : (c.type == t) = false := by
          simp [hc]
        rw [hb, if_neg Bool.false_ne_true]
        exact ih hrest

/-- `setCondition` only rewrites the `conditions` field. -/
theorem setCondition_conditions (st : RecommendationStatus) (t : String)
    (cs : ConditionStatus) (rs ms : String) (n : Int) :
    (setCondition st t cs rs ms n).conditions
      = setCondList st.conditions t cs rs ms n := rfl

/-- When the upsert fixes the condition list, `setCondition` fixes the whole
status. -/
theorem setCondition_eq_self (st : RecommendationStatus) (t : String)
    (cs : ConditionStatus) (rs ms : String) (n : Int)
    (h : setCondList st.conditions t cs rs ms n = st.conditions) :
    setCondition st t cs rs ms n = st := by
  unfold setCondition
  rw [h]

/-- `UpdateStatus` against an identical status is a no-op: no write. -/
theorem UpdateStatus_self (st : RecommendationStatus) (now : Int) :
    UpdateStatus st st now = (st, false) := by
  unfold UpdateStatus
  rw [if_pos rfl]

/-- `UpdateStatus` on a differing status whose conditions pass the readiness
scan: stamps `LastUpdateTime` and advances `LastSuccessfulTime` to it. -/
theorem UpdateStatus_of_ne_ready (cur ns : RecommendationStatus) (now : Int)
    (h : ¬ cur = ns) (hr : readyScan ns.conditions = true) :
    UpdateStatus cur ns now
      = ({ ns with lastUpdateTime := now, lastSuccessfulTime := some now },
         true) := by
  unfold UpdateStatus
  rw [if_neg h]
  dsimp only
  rw [if_pos hr]

/-- `UpdateStatus` on a differing status whose conditions fail the readiness
scan: stamps `LastUpdateTime` only. -/
theorem UpdateStatus_of_ne_not_ready (cur ns : RecommendationStatus)
    (now : Int) (h : ¬ cur = ns) (hr : readyScan ns.conditions = false) :
    UpdateStatus cur ns now = ({ ns with lastUpdateTime := now }, true) := by
  unfold UpdateStatus
  rw [if_neg h]
  dsimp only
  rw [hr]
  rfl

/-- The status `UpdateStatus` leaves in memory always carries the proposed
conditions. -/
theorem UpdateStatus_fst_conditions (cur ns : RecommendationStatus)
    (now : Int) :
    ((UpdateStatus cur ns now).1).conditions = ns.conditions := by
  by_cases h : cur = ns
  · rw [h, UpdateStatus_self]
  · unfold UpdateStatus
    rw [if_neg h]
    dsimp only
    split <;> rfl

/-- The status `UpdateStatus` leaves in memory always carries the proposed
`ResourceRequest`. -/
theorem UpdateStatus_fst_resourceRequest (cur ns : RecommendationStatus)
    (now : Int) :
    ((UpdateStatus cur ns now).1).resourceRequest = ns.resourceRequest := by
  by_cases h : cur = ns
  · rw [h, UpdateStatus_self]
  · unfold UpdateStatus
    rw [if_neg h]
    dsimp only
    split <;> rfl

/-- The status `UpdateStatus` leaves in memory always carries the proposed
`EffectiveHPA`. -/
theorem UpdateStatus_fst_effectiveHPA (cur ns : RecommendationStatus)
    (now : Int) :
    ((UpdateStatus cur ns now).1).effectiveHPA = ns.effectiveHPA := by
  by_cases h : cur = ns
  · rw [h, UpdateStatus_self]
  · unfold UpdateStatus
    rw [if_neg h]
    dsimp only
    split <;> rfl

/-- The payload copy never touches the condition list. -/
theorem payloadStatus_conditions (st : RecommendationStatus)
    (oc : RecommenderOutcome) :
    (payloadStatus st oc).conditions = st.conditions := by
  cases oc with
  | constructionError e => rfl
  | invocationError e => rfl
  | success p =>
      cases p with
      | none => rfl
      | some q => rfl

/-- The payload copy never touches `LastUpdateTime`. -/
theorem payloadStatus_lastUpdateTime (st : RecommendationStatus)
    (oc : RecommenderOutcome) :
    (payloadStatus st oc).lastUpdateTime = st.lastUpdateTime := by
  cases oc with
  | constructionError e => rfl
  | invocationError e => rfl
  | success p =>
      cases p with
      | none => rfl
      | some q => rfl

/-- The payload copy never touches `LastSuccessfulTime`. -/
theorem payloadStatus_lastSuccessfulTime (st : RecommendationStatus)
    (oc : RecommenderOutcome) :
    (payloadStatus st oc).lastSuccessfulTime = st.lastSuccessfulTime := by
  cases oc with
  | constructionError e => rfl
  | invocationError e => rfl
  | success p =>
      cases p with
      | none => rfl
      | some q => rfl

/-- The `newStatus` handed to `UpdateStatus` carries the fetched conditions
with the outcome's `Ready` upsert applied. -/
theorem proposedStatus_conditions (st : RecommendationStatus) (name : String)
    (oc : RecommenderOutcome) (now : Int) :
    (proposedStatus st name oc now).conditions
      = setCondList st.conditions "Ready" (outcomeCondStatus oc)
          (outcomeReason oc) (outcomeMessage name oc) now := by
  unfold proposedStatus
  rw [setCondition_conditions, payloadStatus_conditions]

/-- After a successful outcome the proposed conditions pass the readiness
scan of `UpdateStatus`. -/
theorem readyScan_proposed_success (st : RecommendationStatus) (name : String)
    (p : Option Proposal) (now : Int) :
    readyScan
      (proposedStatus st name (RecommenderOutcome.success p) now).conditions
      = true := by
  obtain ⟨c, hm, ht, hs, hr, hmsg, hl⟩ :=
    setCondList_mem_upserted
      (payloadStatus st (RecommenderOutcome.success p)).conditions
      "Ready" ConditionStatus.ConditionTrue "RecommendationReady"
      "Recommendation is ready" now
  unfold readyScan
  rw [List.any_eq_true]
  exact ⟨c, hm, by rw [hr, hs]; decide⟩

/-- A `Once` recommendation whose `LastSuccessfulTime` is set. -/
def onceDoneRec : Recommendation :=
  { name := "r1", creationTimestamp := 0, deletionTimestamp := none,
    spec := { completionStrategy :=
                { completionStrategyType := "Once", periodSeconds := none },
              timeoutSeconds := none },
    status := { conditions := [], lastUpdateTime := 0,
                lastSuccessfulTime := some 5,
                resourceRequest := none, effectiveHPA := none } }

/-- A `Periodical` recommendation with `LastSuccessfulTime = 100`,
`PeriodSeconds = 300` and the default timeout. -/
def periodicLateRec : Recommendation :=
  { name := "r2", creationTimestamp := 0, deletionTimestamp := none,
    spec := { completionStrategy :=
                { completionStrategyType := "Periodical", periodSeconds := some 300 },
              timeoutSeconds := none },
    status := { conditions := [], lastUpdateTime := 0,
                lastSuccessfulTime := some 100,
                resourceRequest := none, effectiveHPA := none } }

/-- A recommendation whose strategy string is neither `Once` nor
`Periodical`. -/
def otherStrategyRec : Recommendation :=
  { name := "r3", creationTimestamp := 0, deletionTimestamp := none,
    spec := { completionStrategy :=
                { completionStrategyType := "Never", periodSeconds := none },
              timeoutSeconds := some 30 },
    status := { conditions := [], lastUpdateTime := 0,
                lastSuccessfulTime := some 5,
                resourceRequest := none, effectiveHPA := none } }

/-- C1: for a `Once` recommendation, `decide` (`NeedRecommend`) returns
`Skip` whenever `LastSuccessfulTime` is set, for any `now`; with it unset it
returns `Skip` whenever `now > CreationTimestamp + timeout` and keeps
returning `Skip` for every later instant (never `Run` again); otherwise it
returns `Run`. -/
theorem C1_once_decide (r : Recommendation) (now : Int)
    (hs : r.spec.completionStrategy.completionStrategyType = CompletionStrategyOnce) :
    (r.status.lastSuccessfulTime.isSome = true →
        decideAction r now = some Decision.Skip)
    ∧ (r.status.lastSuccessfulTime = none →
        now > r.creationTimestamp + timeoutOf r →
        ∀ later, later ≥ now → decideAction r later = some Decision.Skip)
    ∧ (r.status.lastSuccessfulTime = none →
        now ≤ r.creationTimestamp + timeoutOf r →
        decideAction r now = some Decision.Run) := by
  have hneed : ∀ t : Int, NeedRecommend r t =
      match r.status.lastSuccessfulTime with
      | some _ => some (false, false)
      | none =>
          if t > r.creationTimestamp + timeoutOf r then some (false, false)
          else some (true, false) := by
    intro t
    unfold NeedRecommend timeoutOf
    rw [hs, if_pos rfl]
  refine ⟨?_, ?_, ?_⟩
  · intro h
    obtain ⟨v, hv⟩ := Option.isSome_iff_exists.mp h
    unfold decideAction
    rw [hneed now, hv]
  · intro hl hlate later hge
    unfold decideAction
    rw [hneed later, hl, if_pos (show later > r.creationTimestamp + timeoutOf r by omega)]
  · intro hl hearly
    unfold decideAction
    rw [hneed now, hl, if_neg (show ¬ now > r.creationTimestamp + timeoutOf r by omega)]

/-- Witness for C1 at a concrete `Once` recommendation with a set
`LastSuccessfulTime`. -/
theorem C1_once_decide_witness :
    decideAction onceDoneRec 1000000 = some Decision.Skip :=
  (C1_once_decide onceDoneRec 1000000 rfl).1 rfl

/-- C2: for a `Periodical` recommendation, `decide` returns `Run` when
`LastSuccessfulTime` is unset; with `LastSuccessfulTime = T` and
`PeriodSeconds = P` it returns `Run` for any `now ≤ T + P + timeout` and
`ResyncAfter` with the fixed 60-second interval for any `now > T + P +
timeout`, and on that resync path `Reconcile` returns `RequeueAfter =
RsyncPeriod` with no error and the stored status untouched, for every
possible recommender outcome (the recommender is not consulted). -/
theorem C2_periodical_decide (r : Recommendation) (now T P : Int)
    (hs : r.spec.completionStrategy.completionStrategyType = CompletionStrategyPeriodical)
    (hd : r.deletionTimestamp = none) :
    (r.status.lastSuccessfulTime = none → decideAction r now = some Decision.Run)
    ∧ (r.status.lastSuccessfulTime = some T →
        r.spec.completionStrategy.periodSeconds = some P →
        (now ≤ T + P + timeoutOf r → decideAction r now = some Decision.Run)
        ∧ (now > T + P + timeoutOf r →
            decideAction r now = some (Decision.ResyncAfter RsyncPeriod)
            ∧ ∀ outcome, Reconcile r outcome now =
                some { result := { requeueAfter := some RsyncPeriod },
                       error := none, status := r.status })) := by
  have hnotOnce : ¬ r.spec.completionStrategy.completionStrategyType
      = CompletionStrategyOnce := by
    rw [hs]; decide
  refine ⟨?_, ?_⟩
  · intro hl
    unfold decideAction NeedRecommend
    rw [if_neg hnotOnce, hs, if_pos rfl, hl]
  · intro hl hp
    have hneed : ∀ t : Int, NeedRecommend r t =
        if t > T + P + timeoutOf r then some (false, true)
        else some (true, false) := by
      intro t
      unfold NeedRecommend timeoutOf
      rw [if_neg hnotOnce, hs, if_pos rfl, hl, hp]
    refine ⟨?_, ?_⟩
    · intro hearly
      unfold decideAction
      rw [hneed now]
      have : ¬ (now > T + P + timeoutOf r) := by omega
      rw [if_neg this]
    · intro hlate
      have hval : NeedRecommend r now = some (false, true) := by
        rw [hneed now, if_pos hlate]
      constructor
      · unfold decideAction
        rw [hval]
      · intro outcome
        unfold Reconcile
        rw [hd, hval]
        rfl

/-- Witness for C2 at a concrete `Periodical` recommendation past its
deadline (100 + 300 + 600 < 1001). -/
theorem C2_periodical_decide_witness :
    decideAction periodicLateRec 1001 = some (Decision.ResyncAfter RsyncPeriod)
    ∧ Reconcile periodicLateRec (RecommenderOutcome.success none) 1001 =
        some { result := { requeueAfter := some RsyncPeriod }, error := none,
               status := periodicLateRec.status } := by
  have h :=
    ((C2_periodical_decide periodicLateRec 1001 100 300 rfl rfl).2 rfl rfl).2
      (by decide)
  exact ⟨h.1, h.2 (RecommenderOutcome.success none)⟩

/-- C8: `NeedRecommend` hits the unchecked dereference of
`Spec.CompletionStrategy.PeriodSeconds` (modelled as `none`) exactly when the
strategy is `Periodical`, `Status.LastSuccessfulTime` is set and
`PeriodSeconds` is absent; the computation is total on every other input, so
the panic branch is unreachable precisely under the precondition that every
`Periodical` recommendation carries a `PeriodSeconds`. -/
theorem C8_periodseconds_deref (r : Recommendation) (now : Int) :
    NeedRecommend r now = none ↔
      (r.spec.completionStrategy.completionStrategyType = CompletionStrategyPeriodical
        ∧ (∃ t, r.status.lastSuccessfulTime = some t)
        ∧ r.spec.completionStrategy.periodSeconds = none) := by
  by_cases h1 : r.spec.completionStrategy.completionStrategyType
      = CompletionStrategyOnce
  · have hne : ¬ r.spec.completionStrategy.completionStrategyType
        = CompletionStrategyPeriodical := by
      rw [h1]; decide
    unfold NeedRecommend
    rw [if_pos h1]
    cases r.status.lastSuccessfulTime with
    | none =>
        dsimp only
        constructor
        · intro h; revert h; split <;> simp
        · intro h; exact absurd h.1 hne
    | some v => simp [hne]
  · by_cases h2 : r.spec.completionStrategy.completionStrategyType
        = CompletionStrategyPeriodical
    · unfold NeedRecommend
      rw [if_neg h1, if_pos h2]
      cases r.status.lastSuccessfulTime with
      | none => simp
      | some v =>
          cases hp : r.spec.completionStrategy.periodSeconds with
          | none => simp [h2, hp]
          | some p => dsimp only; split <;> simp
    · unfold NeedRecommend
      rw [if_neg h1, if_neg h2]
      simp [h2]

/-- C9: for a strategy that is neither `Once` nor `Periodical`,
`NeedRecommend` falls through both strategy branches and returns the `Run`
decision `(true, false)`, regardless of status fields or the current time. -/
theorem C9_other_strategy_runs (r : Recommendation) (now : Int)
    (h1 : r.spec.completionStrategy.completionStrategyType ≠ CompletionStrategyOnce)
    (h2 : r.spec.completionStrategy.completionStrategyType ≠ CompletionStrategyPeriodical) :
    NeedRecommend r now = some (true, false)
      ∧ decideAction r now = some Decision.Run := by
  have h : NeedRecommend r now = some (true, false) := by
    unfold NeedRecommend
    rw [if_neg h1, if_neg h2]
  refine ⟨h, ?_⟩
  unfold decideAction
  rw [h]

/-- Witness for C9 at a concrete recommendation with strategy `"Never"`. -/
theorem C9_other_strategy_runs_witness :
    NeedRecommend otherStrategyRec 42 = some (true, false)
      ∧ decideAction otherStrategyRec 42 = some Decision.Run :=
  C9_other_strategy_runs otherStrategyRec 42 (by decide) (by decide)

/-- A two-entry condition list, unique by type. -/
def sampleConds : List Condition :=
  [{ type := "Ready", status := ConditionStatus.ConditionFalse, reason := "a",
     message := "b", lastTransitionTime := 0 },
   { type := "Other", status := ConditionStatus.ConditionUnknown,
     reason := "c", message := "d", lastTransitionTime := 1 }]

/-- The zero value of `RecommendationStatus`. -/
def emptyStatus : RecommendationStatus :=
  { conditions := [], lastUpdateTime := 0, lastSuccessfulTime := none,
    resourceRequest := none, effectiveHPA := none }

/-- A status whose only condition has `Type = "Other"` but carries
`Status = True` and `Reason = "RecommendationReady"`. -/
def strayReadyStatus : RecommendationStatus :=
  { conditions := [{ type := "Other",
                     status := ConditionStatus.ConditionTrue,
                     reason := "RecommendationReady", message := "m",
                     lastTransitionTime := 3 }],
    lastUpdateTime := 0, lastSuccessfulTime := none,
    resourceRequest := none, effectiveHPA := none }

/-- A fresh `Once` recommendation with empty status. -/
def freshOnceRec : Recommendation :=
  { name := "r5", creationTimestamp := 0, deletionTimestamp := none,
    spec := { completionStrategy :=
                { completionStrategyType := "Once", periodSeconds := none },
              timeoutSeconds := none },
    status := emptyStatus }

/-- C6: `setCondition` overwrites `Status`/`Reason`/`Message` and stamps
`LastTransitionTime = now` on the first entry with matching `Type`,
preserving its position; with no matching entry it appends a new one; and
starting from a list unique by `Type`, upserting the same `Type` twice
leaves exactly one entry of that type, holding the latest values. -/
theorem C6_condition_upsert (conds : List Condition) (t : String)
    (cs : ConditionStatus) (rs ms : String) (n : Int)
    (cs2 : ConditionStatus) (rs2 ms2 : String) (n2 : Int) :
    ((∀ c ∈ conds, c.type ≠ t) →
        setCondList conds t cs rs ms n
          = conds ++ [{ type := t, status := cs, reason := rs,
                        message := ms, lastTransitionTime := n }])
    ∧ (∀ l1 c l2, conds = l1 ++ c :: l2 → c.type = t →
        (∀ c' ∈ l1, c'.type ≠ t) →
        setCondList conds t cs rs ms n
          = l1 ++ { c with status := cs, reason := rs,
                           message := ms, lastTransitionTime := n } :: l2)
    ∧ (conds.countP (fun c => c.type == t) ≤ 1 →
        (setCondList (setCondList conds t cs rs ms n) t cs2 rs2 ms2 n2).filter
            (fun c => c.type == t)
          = [{ type := t, status := cs2, reason := rs2, message := ms2,
               lastTransitionTime := n2 }]) := by
  refine ⟨fun h => setCondList_of_not_mem conds t cs rs ms n h,
    fun l1 c l2 he hc h1 => ?_, fun h => ?_⟩
  · rw [he]
    exact setCondList_overwrite_first l1 c l2 t cs rs ms n hc h1
  · rw [setCondList_absorb]
    exact setCondList_filter_unique conds t cs2 rs2 ms2 n2 h

/-- Witness for C6: upserting `Ready` twice into a unique-by-type list
leaves one `Ready` entry with the second upsert's values. -/
theorem C6_condition_upsert_witness :
    (setCondList
        (setCondList sampleConds "Ready" ConditionStatus.ConditionTrue "r1"
          "m1" 2)
        "Ready" ConditionStatus.ConditionFalse "r2" "m2" 3).filter
        (fun c => c.type == "Ready")
      = [{ type := "Ready", status := ConditionStatus.ConditionFalse,
           reason := "r2", message := "m2", lastTransitionTime := 3 }] :=
  (C6_condition_upsert sampleConds "Ready" ConditionStatus.ConditionTrue "r1"
    "m1" 2 ConditionStatus.ConditionFalse "r2" "m2" 3).2.2 (by decide)

/-- C3 counterexample: the status reconcile step is not idempotent across
distinct instants. Starting from the empty status, a successful run at
instant 0 followed by an identical-outcome run at instant 1 yields
`changed = true` again — the upsert restamps `LastTransitionTime` with the
new clock value even though the recommender outcome is identical, so the
second run performs another persistence write. -/
theorem C3_counterexample :
    (reconcileStatus
        (reconcileStatus emptyStatus "r" (RecommenderOutcome.success none) 0).1
        "r" (RecommenderOutcome.success none) 1).2 = true := by
  decide

/-- C3 (amended): rerunning the status reconcile step with the identical
recommender outcome at the same clock instant yields `changed = false` and
leaves the status untouched, hence no persistence write on the second run. -/
theorem C3_idempotent_same_instant (current : RecommendationStatus)
    (name : String) (outcome : RecommenderOutcome) (now : Int) :
    reconcileStatus (reconcileStatus current name outcome now).1 name outcome
        now
      = ((reconcileStatus current name outcome now).1, false) := by
  have hconds : (reconcileStatus current name outcome now).1.conditions
      = setCondList current.conditions "Ready" (outcomeCondStatus outcome)
          (outcomeReason outcome) (outcomeMessage name outcome) now := by
    unfold reconcileStatus
    rw [UpdateStatus_fst_conditions, proposedStatus_conditions]
  have hpay : payloadStatus (reconcileStatus current name outcome now).1
        outcome
      = (reconcileStatus current name outcome now).1 := by
    cases outcome with
    | constructionError e => rfl
    | invocationError e => rfl
    | success p =>
        cases p with
        | none => rfl
        | some prop =>
            have hrr : (reconcileStatus current name
                  (RecommenderOutcome.success (some prop)) now).1.resourceRequest
                = prop.resourceRequest := by
              unfold reconcileStatus
              rw [UpdateStatus_fst_resourceRequest]
              rfl
            have hehpa : (reconcileStatus current name
                  (RecommenderOutcome.success (some prop)) now).1.effectiveHPA
                = prop.effectiveHPA := by
              unfold reconcileStatus
              rw [UpdateStatus_fst_effectiveHPA]
              rfl
            show { (reconcileStatus current name
                      (RecommenderOutcome.success (some prop)) now).1 with
                     resourceRequest := prop.resourceRequest,
                     effectiveHPA := prop.effectiveHPA }
                = (reconcileStatus current name
                    (RecommenderOutcome.success (some prop)) now).1
            rw [← hrr, ← hehpa]
  have hfix : proposedStatus (reconcileStatus current name outcome now).1 name
        outcome now
      = (reconcileStatus current name outcome now).1 := by
    unfold proposedStatus
    rw [hpay]
    apply setCondition_eq_self
    rw [hconds, setCondList_absorb]
  show UpdateStatus (reconcileStatus current name outcome now).1
      (proposedStatus (reconcileStatus current name outcome now).1 name outcome
        now) now
    = ((reconcileStatus current name outcome now).1, false)
  rw [hfix, UpdateStatus_self]

/-- C4 counterexample: the readiness scan of `UpdateStatus` never consults
`Type`. A changed-producing update whose only condition has
`Type = "Other"` (not `"Ready"`) but `Status = True` and
`Reason = "RecommendationReady"` still advances `LastSuccessfulTime`,
contradicting the claim's `Type = "Ready"` requirement. -/
theorem C4_counterexample :
    (UpdateStatus emptyStatus strayReadyStatus 7).2 = true
    ∧ (UpdateStatus emptyStatus strayReadyStatus 7).1.lastSuccessfulTime
        = some 7
    ∧ strayReadyStatus.conditions.all (fun c => !(c.type == "Ready"))
        = true := by
  decide

/-- C4 (amended): `LastSuccessfulTime` is advanced (set to the freshly
stamped `LastUpdateTime = now`) if and only if the update is
changed-producing and the new conditions contain an entry with
`Status = True` and `Reason = "RecommendationReady"` — the `Type` field is
not consulted; an unchanged update leaves the status untouched and performs
no write. -/
theorem C4_last_successful_advance (current ns : RecommendationStatus)
    (now : Int) :
    (current ≠ ns → readyScan ns.conditions = true →
        UpdateStatus current ns now
          = ({ ns with lastUpdateTime := now,
                       lastSuccessfulTime := some now }, true))
    ∧ (current ≠ ns → readyScan ns.conditions = false →
        UpdateStatus current ns now
          = ({ ns with lastUpdateTime := now }, true))
    ∧ (current = ns → UpdateStatus current ns now = (current, false)) := by
  refine ⟨fun h hr => UpdateStatus_of_ne_ready current ns now h hr,
    fun h hr => UpdateStatus_of_ne_not_ready current ns now h hr,
    fun h => ?_⟩
  rw [h]
  exact UpdateStatus_self ns now

/-- Witness for C4 (amended) at a concrete changed-producing, scan-passing
update. -/
theorem C4_last_successful_advance_witness :
    UpdateStatus emptyStatus strayReadyStatus 7
      = ({ strayReadyStatus with lastUpdateTime := 7,
                                 lastSuccessfulTime := some 7 }, true) :=
  (C4_last_successful_advance emptyStatus strayReadyStatus 7).1 (by decide)
    (by decide)

/-- C5 counterexample: at a fresh `Once` recommendation inside its window, a
recommender-construction failure makes `Reconcile` return `ctrl.Result{}` —
no requeue delay at all, in particular not the 5-second fallback — together
with the error (line 87). Only the invocation-failure path requests the
5-second requeue. -/
theorem C5_counterexample :
    (Reconcile freshOnceRec (RecommenderOutcome.constructionError "boom")
        10).map (fun o => (o.result.requeueAfter, o.error))
      = some (none, some "boom") := by
  decide

/-- C5 (amended): on an invocation failure `Reconcile` returns
`RequeueAfter = ErrorFallbackPeriod` (5 seconds) together with the error;
on a construction failure it returns an empty result (no explicit requeue)
together with the error. -/
theorem C5_failure_requeue (r : Recommendation) (now : Int) (e : String)
    (hd : r.deletionTimestamp = none)
    (hn : NeedRecommend r now = some (true, false)) :
    Reconcile r (RecommenderOutcome.invocationError e) now
      = some { result := { requeueAfter := some ErrorFallbackPeriod },
               error := some e,
               status := (reconcileStatus r.status r.name
                 (RecommenderOutcome.invocationError e) now).1 }
    ∧ Reconcile r (RecommenderOutcome.constructionError e) now
      = some { result := { requeueAfter := none }, error := some e,
               status := (reconcileStatus r.status r.name
                 (RecommenderOutcome.constructionError e) now).1 } := by
  constructor
  · unfold Reconcile
    rw [hd, hn]
    rfl
  · unfold Reconcile
    rw [hd, hn]
    rfl

/-- Witness for C5 (amended) at a fresh `Once` recommendation. -/
theorem C5_failure_requeue_witness :
    Reconcile freshOnceRec (RecommenderOutcome.invocationError "boom") 10
      = some { result := { requeueAfter := some ErrorFallbackPeriod },
               error := some "boom",
               status := (reconcileStatus freshOnceRec.status
                 freshOnceRec.name
                 (RecommenderOutcome.invocationError "boom") 10).1 } :=
  (C5_failure_requeue freshOnceRec 10 "boom" rfl (by decide)).1

/-- C7: on a construction failure and likewise on an invocation failure,
the final status carries a `Ready = False` condition with the
failure-specific reason whose message embeds the underlying error text, and
`ResourceRequest` / `EffectiveHPA` are exactly the fetched ones — never
cleared or overwritten on the failure paths. -/
theorem C7_failure_condition_frame (r : Recommendation) (now : Int)
    (e : String) (hd : r.deletionTimestamp = none)
    (hn : NeedRecommend r now = some (true, false)) :
    (∃ out, Reconcile r (RecommenderOutcome.constructionError e) now
        = some out
      ∧ out.status.resourceRequest = r.status.resourceRequest
      ∧ out.status.effectiveHPA = r.status.effectiveHPA
      ∧ ∃ c ∈ out.status.conditions,
          c.type = "Ready" ∧ c.status = ConditionStatus.ConditionFalse
            ∧ c.reason = "FailedCreateRecommender"
            ∧ ∃ pre, c.message = pre ++ e)
    ∧ (∃ out, Reconcile r (RecommenderOutcome.invocationError e) now
        = some out
      ∧ out.status.resourceRequest = r.status.resourceRequest
      ∧ out.status.effectiveHPA = r.status.effectiveHPA
      ∧ ∃ c ∈ out.status.conditions,
          c.type = "Ready" ∧ c.status = ConditionStatus.ConditionFalse
            ∧ c.reason = "FailedOfferRecommend"
            ∧ ∃ pre, c.message = pre ++ e) := by
  constructor
  · refine ⟨{ result := { requeueAfter := none }, error := some e,
              status := (reconcileStatus r.status r.name
                (RecommenderOutcome.constructionError e) now).1 },
      ?_, ?_, ?_, ?_⟩
    · unfold Reconcile
      rw [hd, hn]
      rfl
    · show (reconcileStatus r.status r.name
          (RecommenderOutcome.constructionError e) now).1.resourceRequest
        = r.status.resourceRequest
      unfold reconcileStatus
      rw [UpdateStatus_fst_resourceRequest]
      rfl
    · show (reconcileStatus r.status r.name
          (RecommenderOutcome.constructionError e) now).1.effectiveHPA
        = r.status.effectiveHPA
      unfold reconcileStatus
      rw [UpdateStatus_fst_effectiveHPA]
      rfl
    · have hcond : (reconcileStatus r.status r.name
          (RecommenderOutcome.constructionError e) now).1.conditions
          = setCondList r.status.conditions "Ready"
              ConditionStatus.ConditionFalse "FailedCreateRecommender"
              (failedCreateRecommenderMsg r.name e) now := by
        unfold reconcileStatus
        rw [UpdateStatus_fst_conditions, proposedStatus_conditions]
        rfl
      dsimp only
      rw [hcond]
      obtain ⟨c, hm, ht, hs, hr, hmsg, hl⟩ :=
        setCondList_mem_upserted r.status.conditions "Ready"
          ConditionStatus.ConditionFalse "FailedCreateRecommender"
          (failedCreateRecommenderMsg r.name e) now
      exact ⟨c, hm, ht, hs, hr,
        "Failed to create recommender, Recommendation " ++ r.name
          ++ " error ", by rw [hmsg]; rfl⟩
  · refine ⟨{ result := { requeueAfter := some ErrorFallbackPeriod },
              error := some e,
              status := (reconcileStatus r.status r.name
                (RecommenderOutcome.invocationError e) now).1 },
      ?_, ?_, ?_, ?_⟩
    · unfold Reconcile
      rw [hd, hn]
      rfl
    · show (reconcileStatus r.status r.name
          (RecommenderOutcome.invocationError e) now).1.resourceRequest
        = r.status.resourceRequest
      unfold reconcileStatus
      rw [UpdateStatus_fst_resourceRequest]
      rfl
    · show (reconcileStatus r.status r.name
          (RecommenderOutcome.invocationError e) now).1.effectiveHPA
        = r.status.effectiveHPA
      unfold reconcileStatus
      rw [UpdateStatus_fst_effectiveHPA]
      rfl
    · have hcond : (reconcileStatus r.status r.name
          (RecommenderOutcome.invocationError e) now).1.conditions
          = setCondList r.status.conditions "Ready"
              ConditionStatus.ConditionFalse "FailedOfferRecommend"
              (failedOfferRecommendMsg r.name e) now := by
        unfold reconcileStatus
        rw [UpdateStatus_fst_conditions, proposedStatus_conditions]
        rfl
      dsimp only
      rw [hcond]
      obtain ⟨c, hm, ht, hs, hr, hmsg, hl⟩ :=
        setCondList_mem_upserted r.status.conditions "Ready"
          ConditionStatus.ConditionFalse "FailedOfferRecommend"
          (failedOfferRecommendMsg r.name e) now
      exact ⟨c, hm, ht, hs, hr,
        "Failed to offer recommend, Recommendation " ++ r.name
          ++ " error ", by rw [hmsg]; rfl⟩

/-- Witness for C7 at a fresh `Once` recommendation. -/
theorem C7_failure_condition_frame_witness :
    (∃ out, Reconcile freshOnceRec
        (RecommenderOutcome.constructionError "boom") 10 = some out
      ∧ out.status.resourceRequest = freshOnceRec.status.resourceRequest
      ∧ out.status.effectiveHPA = freshOnceRec.status.effectiveHPA
      ∧ ∃ c ∈ out.status.conditions,
          c.type = "Ready" ∧ c.status = ConditionStatus.ConditionFalse
            ∧ c.reason = "FailedCreateRecommender"
            ∧ ∃ pre, c.message = pre ++ "boom")
    ∧ (∃ out, Reconcile freshOnceRec
        (RecommenderOutcome.invocationError "boom") 10 = some out
      ∧ out.status.resourceRequest = freshOnceRec.status.resourceRequest
      ∧ out.status.effectiveHPA = freshOnceRec.status.effectiveHPA
      ∧ ∃ c ∈ out.status.conditions,
          c.type = "Ready" ∧ c.status = ConditionStatus.ConditionFalse
            ∧ c.reason = "FailedOfferRecommend"
            ∧ ∃ pre, c.message = pre ++ "boom") :=
  C7_failure_condition_frame freshOnceRec 10 "boom" rfl (by decide)

/-- C10: when `Offer` succeeds with a nil proposal, `Reconcile` still
upserts `Ready = True` with reason `RecommendationReady` and attempts the
status update — advancing `LastSuccessfulTime` to `now` whenever the update
is changed-producing — while `ResourceRequest` / `EffectiveHPA` stay the
fetched ones; with a non-nil proposal the payloads are copied verbatim into
status. -/
theorem C10_nil_proposal (r : Recommendation) (now : Int)
    (hd : r.deletionTimestamp = none)
    (hn : NeedRecommend r now = some (true, false)) :
    ∃ out, Reconcile r (RecommenderOutcome.success none) now = some out
      ∧ out.result = { requeueAfter := none }
      ∧ out.error = none
      ∧ out.status.resourceRequest = r.status.resourceRequest
      ∧ out.status.effectiveHPA = r.status.effectiveHPA
      ∧ (∃ c ∈ out.status.conditions,
          c.type = "Ready" ∧ c.status = ConditionStatus.ConditionTrue
            ∧ c.reason = "RecommendationReady")
      ∧ ((reconcileStatus r.status r.name (RecommenderOutcome.success none)
            now).2 = true →
          out.status.lastSuccessfulTime = some now)
      ∧ ∀ p : Proposal, ∃ out2,
          Reconcile r (RecommenderOutcome.success (some p)) now = some out2
            ∧ out2.status.resourceRequest = p.resourceRequest
            ∧ out2.status.effectiveHPA = p.effectiveHPA := by
  refine ⟨{ result := { requeueAfter := none }, error := none,
            status := (reconcileStatus r.status r.name
              (RecommenderOutcome.success none) now).1 },
    ?_, rfl, rfl, ?_, ?_, ?_, ?_, ?_⟩
  · unfold Reconcile
    rw [hd, hn]
    rfl
  · show (reconcileStatus r.status r.name
        (RecommenderOutcome.success none) now).1.resourceRequest
      = r.status.resourceRequest
    unfold reconcileStatus
    rw [UpdateStatus_fst_resourceRequest]
    rfl
  · show (reconcileStatus r.status r.name
        (RecommenderOutcome.success none) now).1.effectiveHPA
      = r.status.effectiveHPA
    unfold reconcileStatus
    rw [UpdateStatus_fst_effectiveHPA]
    rfl
  · have hcond : (reconcileStatus r.status r.name
        (RecommenderOutcome.success none) now).1.conditions
        = setCondList r.status.conditions "Ready"
            ConditionStatus.ConditionTrue "RecommendationReady"
            "Recommendation is ready" now := by
      unfold reconcileStatus
      rw [UpdateStatus_fst_conditions, proposedStatus_conditions]
      rfl
    dsimp only
    rw [hcond]
    obtain ⟨c, hm, ht, hs, hr, hmsg, hl⟩ :=
      setCondList_mem_upserted r.status.conditions "Ready"
        ConditionStatus.ConditionTrue "RecommendationReady"
        "Recommendation is ready" now
    exact ⟨c, hm, ht, hs, hr⟩
  · intro hch
    by_cases heq : r.status
        = proposedStatus r.status r.name (RecommenderOutcome.success none) now
    · exfalso
      unfold reconcileStatus at hch
      rw [← heq, UpdateStatus_self] at hch
      exact Bool.false_ne_true hch
    · have hup := UpdateStatus_of_ne_ready r.status
        (proposedStatus r.status r.name (RecommenderOutcome.success none) now)
        now heq (readyScan_proposed_success r.status r.name none now)
      show (reconcileStatus r.status r.name
          (RecommenderOutcome.success none) now).1.lastSuccessfulTime
        = some now
      unfold reconcileStatus
      rw [hup]
  · intro p
    refine ⟨{ result := { requeueAfter := none }, error := none,
              status := (reconcileStatus r.status r.name
                (RecommenderOutcome.success (some p)) now).1 },
      ?_, ?_, ?_⟩
    · unfold Reconcile
      rw [hd, hn]
      rfl
    · show (reconcileStatus r.status r.name
          (RecommenderOutcome.success (some p)) now).1.resourceRequest
        = p.resourceRequest
      unfold reconcileStatus
      rw [UpdateStatus_fst_resourceRequest]
      rfl
    · show (reconcileStatus r.status r.name
          (RecommenderOutcome.success (some p)) now).1.effectiveHPA
        = p.effectiveHPA
      unfold reconcileStatus
      rw [UpdateStatus_fst_effectiveHPA]
      rfl

/-- Witness for C10 at a fresh `Once` recommendation. -/
theorem C10_nil_proposal_witness :
    ∃ out, Reconcile freshOnceRec (RecommenderOutcome.success none) 10
        = some out
      ∧ out.result = { requeueAfter := none }
      ∧ out.error = none
      ∧ out.status.resourceRequest = freshOnceRec.status.resourceRequest
      ∧ out.status.effectiveHPA = freshOnceRec.status.effectiveHPA
      ∧ (∃ c ∈ out.status.conditions,
          c.type = "Ready" ∧ c.status = ConditionStatus.ConditionTrue
            ∧ c.reason = "RecommendationReady")
      ∧ ((reconcileStatus freshOnceRec.status freshOnceRec.name
            (RecommenderOutcome.success none) 10).2 = true →
          out.status.lastSuccessfulTime = some 10)
      ∧ ∀ p : Proposal, ∃ out2,
          Reconcile freshOnceRec (RecommenderOutcome.success (some p)) 10
              = some out2
            ∧ out2.status.resourceRequest = p.resourceRequest
            ∧ out2.status.effectiveHPA = p.effectiveHPA :=
  C10_nil_proposal freshOnceRec 10 rfl (by decide)

end Crane
